import Mathlib

/-!
Verification development for the receipt-reimbursement pipeline
(`src/reimb_script.py`).

The Python source is shallowly embedded: strings are `List Char`/`String`,
images are lists of 8-bit grayscale pixel values (`List Nat`, values 0–255),
the three `re.search` patterns of `extract_receipt_data` are implemented as
explicit leftmost-match scanners with Python's greedy-backtracking semantics,
and the Streamlit handler's batch loop is explicit recursion over the list of
uploads.  Python floats that appear in the source (`1500 / max(img.size)`,
`* 0.5`, autocontrast's `scale`/`offset`) are modelled as exact rationals; on
every concrete input used below these float computations are exact, so the
model and the source agree there.  Python's Unicode `\w`/`\d`/whitespace
classes are modelled by their ASCII restrictions, which agree with Python on
every character appearing in receipts and in the monetary glyph set.
-/

/-! ### Python character classes and string helpers -/

/-- Python regex word character `\w` (ASCII restriction): letter, digit or
underscore.  The currency glyphs `$`, `€`, `£` are not word characters,
matching Python. -/
def isWordChar (c : Char) : Bool := c.isAlphanum || c = '_'

/-- Characters stripped by Python's `str.strip()` (ASCII whitespace). -/
def isPySpace (c : Char) : Bool :=
  c = ' ' || c = '\t' || c = '\n' || c = '\r' ||
  c = Char.ofNat 11 || c = Char.ofNat 12

/-- Line-break characters recognised by Python's `str.splitlines()`. -/
def isLineBreak (c : Char) : Bool :=
  c = '\n' || c = '\r' || c = Char.ofNat 11 || c = Char.ofNat 12 ||
  c = Char.ofNat 28 || c = Char.ofNat 29 || c = Char.ofNat 30 ||
  c = Char.ofNat 133 || c = Char.ofNat 8232 || c = Char.ofNat 8233

/-- First element of `text.splitlines()`: the characters before the first
line break. -/
def firstLineOf : List Char → List Char
  | [] => []
  | c :: rest => if isLineBreak c then [] else c :: firstLineOf rest

/-- `str.strip()`: drop leading and trailing whitespace. -/
def stripList (l : List Char) : List Char :=
  ((l.dropWhile isPySpace).reverse.dropWhile isPySpace).reverse

/-- `str(...).strip()` on a cell value already rendered as a string. -/
def pyStripStr (s : String) : String := String.mk (stripList s.toList)

/-! ### Regex machinery

`re.search` scans left to right and, at each start position, runs the
pattern with greedy backtracking.  `searchAux f prev cs` tries the
position matcher `f` at every position of `cs`, threading the previous
character (needed for `\b`), and returns the match index and the matched
characters of the first position where `f` succeeds. -/

/-- Is the character before the current position a word character?
(`none` = start of string, a non-word position for `\b`.) -/
def prevIsWord (prev : Option Char) : Bool :=
  match prev with
  | none => false
  | some c => isWordChar c

/-- `\b` immediately after the match: next character absent or non-word
(the last matched character is always a word character here). -/
def boundaryAfter (s : List Char) : Bool :=
  match s with
  | [] => true
  | c :: _ => !isWordChar c

/-- Take exactly `n` characters satisfying `p`; return them and the rest. -/
def takeExact : Nat → (Char → Bool) → List Char → Option (List Char × List Char)
  | 0, _, s => some ([], s)
  | _ + 1, _, [] => none
  | n + 1, p, c :: rest =>
    if p c then (takeExact n p rest).map (fun q => (c :: q.1, q.2)) else none

/-- Leftmost-match scan: index of first position where `f` succeeds, with
the matched characters. -/
def searchAux (f : Option Char → List Char → Option (List Char)) :
    Option Char → List Char → Option (Nat × List Char)
  | prev, [] =>
    match f prev [] with
    | some m => some (0, m)
    | none => none
  | prev, c :: rest =>
    match f prev (c :: rest) with
    | some m => some (0, m)
    | none =>
      match searchAux f (some c) rest with
      | some q => some (q.1 + 1, q.2)
      | none => none

/-- Character before position `j` (`prev` is the character before position
0 of `cs`, i.e. `none` at the start of the string). -/
def prevAt (prev : Option Char) (cs : List Char) (j : Nat) : Option Char :=
  match j with
  | 0 => prev
  | k + 1 => cs.get? k

/-! ### Date pattern (source line 123): `\b(\d` 1–2 `[`sep`]\d` 1–2
`[`sep`]\d` 2–4 `)\b`, where sep is the class holding `/` and dash. -/

/-- Is `c` one of the date separators `/` or `-`? -/
def isDateSep (c : Char) : Bool := c = '/' || c = '-'

/-- Match `a` digits, a separator, `b` digits, a separator, `y` digits and
a trailing `\b` exactly at the front of `s`, returning the matched
characters. -/
def dateAttempt (a b y : Nat) (s : List Char) : Option (List Char) :=
  match takeExact a Char.isDigit s with
  | none => none
  | some (dsA, s1) =>
    match s1 with
    | [] => none
    | c1 :: s2 =>
      if isDateSep c1 then
        match takeExact b Char.isDigit s2 with
        | none => none
        | some (dsB, s3) =>
          match s3 with
          | [] => none
          | c2 :: s4 =>
            if isDateSep c2 then
              match takeExact y Char.isDigit s4 with
              | none => none
              | some (dsY, s5) =>
                if boundaryAfter s5 then some (dsA ++ c1 :: (dsB ++ c2 :: dsY))
                else none
            else none
      else none

/-- Greedy backtracking order for `\d{1,2} … \d{1,2} … \d{2,4}`: the
leftmost quantifier backtracks last, each quantifier tries the longer
length first. -/
def dateCombos : List (Nat × Nat × Nat) :=
  [(2,2,4),(2,2,3),(2,2,2),(2,1,4),(2,1,3),(2,1,2),
   (1,2,4),(1,2,3),(1,2,2),(1,1,4),(1,1,3),(1,1,2)]

/-- The date pattern at one position.  The first matched character is a
digit (a word character), so the leading `\b` holds iff the previous
character is absent or non-word. -/
def dateAt (prev : Option Char) (s : List Char) : Option (List Char) :=
  if prevIsWord prev then none
  else dateCombos.findSome? (fun t => dateAttempt t.1 t.2.1 t.2.2 s)

/-! ### Amount pattern: `\b([\\$€£]?[0-9,]+\.\d{2})\b`
(source line 124).  Note the character class of the optional glyph
contains a literal backslash, `$`, `€` and `£`. -/

/-- The optional leading glyph of the amount pattern. -/
def isAmtGlyph (c : Char) : Bool := c = '\\' || c = '$' || c = '€' || c = '£'

/-- A digit or a grouping comma (the class `[0-9,]`). -/
def isAmtDigitComma (c : Char) : Bool := c.isDigit || c = ','

/-- Match `[0-9,]+\.\d{2}\b` at the front of `s`.  The `+` is greedy; a
shorter run always leaves a digit or comma (never `.`) as the next
character, so only the maximal run can continue, exactly as in Python's
backtracking. -/
def amountCore (s : List Char) : Option (List Char) :=
  let run := s.takeWhile isAmtDigitComma
  if run.isEmpty then none
  else
    match s.dropWhile isAmtDigitComma with
    | '.' :: d1 :: d2 :: r3 =>
      if d1.isDigit && d2.isDigit && boundaryAfter r3 then
        some (run ++ '.' :: d1 :: d2 :: [])
      else none
    | _ => none

/-- The amount pattern with the glyph absent: the first matched character
is a digit (word) or a comma (non-word), and `\b` requires the previous
character's word-ness to differ. -/
def amountNoGlyphAt (prev : Option Char) (s : List Char) : Option (List Char) :=
  match s with
  | [] => none
  | c :: _ =>
    if isAmtDigitComma c && (prevIsWord prev != isWordChar c) then amountCore s
    else none

/-- The amount pattern at one position.  The greedy `?` tries the glyph
first; the glyph is a non-word character, so `\b` before it requires a
word character on the left. -/
def amountAt (prev : Option Char) (s : List Char) : Option (List Char) :=
  match s with
  | [] => none
  | c :: rest =>
    if isAmtGlyph c && prevIsWord prev then
      match amountCore rest with
      | some m => some (c :: m)
      | none => amountNoGlyphAt prev (c :: rest)
    else amountNoGlyphAt prev (c :: rest)

/-! ### Currency pattern: `\b(USD|EUR|GBP|JPY|CAD|AUD|INR|BRL|PEN|CNY)\b`
(source line 125) -/

/-- The alternatives, in the pattern's order. -/
def currencyCodes : List (List Char) :=
  ["USD".toList, "EUR".toList, "GBP".toList, "JPY".toList, "CAD".toList,
   "AUD".toList, "INR".toList, "BRL".toList, "PEN".toList, "CNY".toList]

/-- The currency pattern at one position: each code starts with a letter,
so the leading `\b` holds iff the previous character is absent/non-word. -/
def currAt (prev : Option Char) (s : List Char) : Option (List Char) :=
  if prevIsWord prev then none
  else currencyCodes.findSome?
    (fun code => if s.take 3 == code && boundaryAfter (s.drop 3) then some code else none)

/-! ### `extract_receipt_data` (source lines 119–135) -/

/-- The dict returned by `extract_receipt_data`. -/
structure ReceiptRecord where
  date : String
  description : String
  expenseType : String
  localAmount : String
  currency : String
  projectGrant : String
  receiptYN : String
deriving DecidableEq

/-- `.replace("$", "").replace("€", "").replace("£", "")` on the captured
amount: every occurrence of those three characters is removed (grouping
commas and the backslash of the glyph class are untouched). -/
def stripAmtGlyphs (l : List Char) : List Char :=
  l.filter (fun c => !(c = '$' || c = '€' || c = '£'))

/-- `extract_receipt_data(img)` given the OCR text of the image: the three
`re.search` calls, `g(m) = m.group(1) if m else ""`, the description is
`text.splitlines()[0] if text.strip() else ""`, and the amount has the
three currency glyphs removed. -/
def extract_receipt_data (text : String) : ReceiptRecord :=
  { date :=
      match searchAux dateAt none text.toList with
      | some q => String.mk q.2
      | none => ""
    description :=
      if text.toList.all isPySpace then "" else String.mk (firstLineOf text.toList)
    expenseType := ""
    localAmount :=
      match searchAux amountAt none text.toList with
      | some q => String.mk (stripAmtGlyphs q.2)
      | none => ""
    currency :=
      match searchAux currAt none text.toList with
      | some q => String.mk q.2
      | none => ""
    projectGrant := ""
    receiptYN := "Y" }


/-! ### `preprocess` (source lines 76–97)

Dimensions: the source upscales iff `max(img.size) < 1500`, with
`scale = 1500 / max(img.size)` and `int(width * scale)` per axis.
`int` truncates and all quantities are non-negative, so under the exact
rational model each new dimension is the natural-number floor division
`old * 1500 / max`. -/

/-- 256-bin histogram of a pixel list. -/
def histogram (g : List Nat) : List Nat :=
  (List.range 256).map (fun v => g.count v)

/-- Cut `cut` counts off the front of a histogram, walking bins upward:
a bin smaller than the remaining cut is zeroed, the first larger bin is
reduced by the rest (PIL's cutoff loop). -/
def cutLow : Nat → List Nat → List Nat
  | _, [] => []
  | cut, hd :: tl => if hd < cut then 0 :: cutLow (cut - hd) tl else (hd - cut) :: tl

/-- Lowest value with a surviving histogram count (PIL leaves the loop
variable at 255 when every bin is empty). -/
def loOf (h : List Nat) : Nat :=
  match h.findIdx? (fun x => x ≠ 0) with
  | some i => i
  | none => 255

/-- Highest value with a surviving histogram count (0 when every bin is
empty), for a 256-bin histogram. -/
def hiOf (h : List Nat) : Nat :=
  match h.reverse.findIdx? (fun x => x ≠ 0) with
  | some i => 255 - i
  | none => 0

/-- `(lo, hi)` of `autocontrast(g, cutoff)`: histogram, both ends cut by
`g.length * cutoff // 100`, then lowest/highest surviving values. -/
def acResolve (cutoff : Nat) (g : List Nat) : Nat × Nat :=
  let cut := g.length * cutoff / 100
  let h2 := (cutLow cut (cutLow cut (histogram g)).reverse).reverse
  (loOf h2, hiOf h2)

/-- The autocontrast lookup table entry: identity when `hi ≤ lo`, else
`clamp(int((ix - lo) * scale))` with `scale = 255 / (hi - lo)`; negative
arguments clamp to 0 and the floor division below is exact for the rest. -/
def acLutVal (lo hi ix : Nat) : Nat :=
  if hi ≤ lo then ix
  else if ix ≤ lo then 0
  else min 255 ((ix - lo) * 255 / (hi - lo))

/-- Map an image through the lookup table determined by `(lo, hi)`. -/
def acMapped (p : Nat × Nat) (g : List Nat) : List Nat :=
  g.map (fun x => acLutVal p.1 p.2 x)

/-- `ImageOps.autocontrast(g, cutoff)` on the pixel list. -/
def autocontrastApply (cutoff : Nat) (g : List Nat) : List Nat :=
  acMapped (acResolve cutoff g) g

/-- Maximum pixel value, `getextrema()[1]` of a (nonempty) image. -/
def listMax (l : List Nat) : Nat := l.foldr max 0

/-- Point-threshold at `m * 0.5`: for integer `x`, `x > m * 0.5` iff
`m < 2 * x`. -/
def binWith (m : Nat) (g : List Nat) : List Nat :=
  g.map (fun x => if m < 2 * x then 255 else 0)

/-- The binarisation of source line 95:
`gray.point(lambda x: 255 if x > ImageOps.autocontrast(gray).getextrema()[1] * 0.5 else 0)`. -/
def binarizeStep (gray : List Nat) : List Nat :=
  binWith (listMax (autocontrastApply 0 gray)) gray

/-- The pixel pipeline of `preprocess` from the grayscale image to the
output of the binarisation step: `autocontrast(gray, cutoff=2)` followed
by the point threshold (the final SHARPEN filter is after binarisation
and outside this claim's scope). -/
def preprocessGray (g : List Nat) : List Nat :=
  binarizeStep (autocontrastApply 2 g)

/-! ### Otsu's method, as the spec words it

These definitions follow the spec's words ("choose the threshold
minimizing intra-class variance of the image histogram"), for comparison
against the source's threshold; they are not part of the source. -/

/-- Sum of pixel values, as a rational. -/
def sumQ (l : List Nat) : ℚ := l.foldr (fun x acc => (x : ℚ) + acc) 0

/-- Sum of squared pixel values, as a rational. -/
def sumSqQ (l : List Nat) : ℚ := l.foldr (fun x acc => (x : ℚ) ^ 2 + acc) 0

/-- Sum of squared deviations from the class mean (`n · variance`). -/
def sqDevSum (l : List Nat) : ℚ :=
  if l.length = 0 then 0 else sumSqQ l - (sumQ l) ^ 2 / (l.length : ℚ)

/-- Weighted intra-class variance of the partition `{≤ t} / {> t}`:
`w₀σ₀² + w₁σ₁²`. -/
def intraClassVar (l : List Nat) (t : Nat) : ℚ :=
  (sqDevSum (l.filter (fun x => decide (x ≤ t))) +
   sqDevSum (l.filter (fun x => !decide (x ≤ t)))) / (l.length : ℚ)

/-! Integer forms of the same quantities, for computation: `Rat`
arithmetic is irreducible, so concrete variance comparisons are decided
through cross-multiplied integers and a bridging lemma. -/

/-- Sum of pixel values. -/
def sumNat (l : List Nat) : Nat := l.foldr (fun x acc => x + acc) 0

/-- Sum of squared pixel values. -/
def sumSqNat (l : List Nat) : Nat := l.foldr (fun x acc => x * x + acc) 0

/-- `c.length * sqDevSum c` as an integer. -/
def ssNum (c : List Nat) : ℤ :=
  (c.length : ℤ) * (sumSqNat c : ℤ) - (sumNat c : ℤ) ^ 2

/-- Denominator of `sqDevSum` (1 for the empty class). -/
def clsDen (c : List Nat) : Nat := max 1 c.length

/-- Numerator of `intraClassVar l t` over `icvDen`. -/
def icvNum (l : List Nat) (t : Nat) : ℤ :=
  ssNum (l.filter (fun x => decide (x ≤ t))) * (clsDen (l.filter (fun x => !decide (x ≤ t))) : ℤ) +
  ssNum (l.filter (fun x => !decide (x ≤ t))) * (clsDen (l.filter (fun x => decide (x ≤ t))) : ℤ)

/-- Denominator of `intraClassVar l t`. -/
def icvDen (l : List Nat) (t : Nat) : Nat :=
  clsDen (l.filter (fun x => decide (x ≤ t))) *
    clsDen (l.filter (fun x => !decide (x ≤ t))) * l.length

/-- A 49-pixel grayscale image: one black pixel, 24 pixels at 128, 24 at
255.  Autocontrast (cutoff 2 cuts `49 * 2 // 100 = 0` pixels) leaves it
unchanged, so it is also the input reaching the binarisation step. -/
def img6 : List Nat := 0 :: (List.replicate 24 128 ++ List.replicate 24 255)

set_option maxRecDepth 100000


/-! ### The Extract & Send handler (source lines 153–198)

An uploaded file either decodes to an image (represented by the OCR text
that `safe_ocr` produces for it, since the external OCR engine is a
deterministic collaborator) or fails to decode, in which case
`load_uploaded_image` raises `ValueError` (the `UnreadableImage` error). -/

/-- An uploaded file: decodable with the given OCR text, or undecodable. -/
inductive Upload where
  | ok (ocrText : String)
  | bad
deriving DecidableEq

/-- Errors surfaced by the handler. -/
inductive PipelineError where
  | unreadableImage
deriving DecidableEq

/-- `load_uploaded_image` (source lines 107–116): decode or raise. -/
def load_uploaded_image : Upload → Except PipelineError String
  | Upload.ok t => Except.ok t
  | Upload.bad => Except.error PipelineError.unreadableImage

/-- The OCR text of a decodable upload. -/
def uploadText : Upload → String
  | Upload.ok t => t
  | Upload.bad => ""

/-- The list comprehension
`[extract_receipt_data(load_uploaded_image(u)) for u in uploads]` inside
the handler's `try`: uploads are processed left to right and the first
decode failure propagates, aborting the rest. -/
def processUploads : List Upload → Except PipelineError (List ReceiptRecord)
  | [] => Except.ok []
  | u :: rest =>
    match load_uploaded_image u with
    | Except.error e => Except.error e
    | Except.ok t =>
      match processUploads rest with
      | Except.error e => Except.error e
      | Except.ok rs => Except.ok (extract_receipt_data t :: rs)

/-- `FIRST_DATA_ROW = 19` (source line 37). -/
def FIRST_DATA_ROW : Nat := 19

/-- Is a cell's value (as rendered by `str(...)`) an empty template
marker?  Source line 166: `str(...).strip() not in ("", "None", "-")`. -/
def isBlankCell (v : String) : Bool :=
  pyStripStr v == "" || pyStripStr v == "None" || pyStripStr v == "-"

/-- The `while` loop of source lines 165–167, with fuel: starting at
`row`, advance until the column-B cell is a template marker.  `cells j`
is `str(ws.cell(j, DATE_COL).value)` for the external sheet. -/
def findStartRow (cells : Nat → String) : Nat → Nat → Option Nat
  | 0, _ => none
  | fuel + 1, row =>
    if isBlankCell (cells row) then some row else findStartRow cells fuel (row + 1)

/-- A spreadsheet cell payload: the receipt number is an `int`, every
other written value a string. -/
inductive Cell where
  | num (n : Nat)
  | str (s : String)
deriving DecidableEq

/-- The A–F cells of one record, after the receipt number (source lines
173–176). -/
def recordCellsAF (r : ReceiptRecord) : List Cell :=
  [Cell.str r.date, Cell.str r.description, Cell.str r.expenseType,
   Cell.str r.localAmount, Cell.str r.currency]

/-- The `rows_af` loop of source lines 171–177: the record at position
`i` gets receipt number `firstNo + i`. -/
def rowsAF : Nat → List ReceiptRecord → List (List Cell)
  | _, [] => []
  | firstNo, r :: rest => (Cell.num firstNo :: recordCellsAF r) :: rowsAF (firstNo + 1) rest

/-- The `rows_ij` rows (source line 177). -/
def rowsIJ (rs : List ReceiptRecord) : List (List Cell) :=
  rs.map (fun r => [Cell.str r.projectGrant, Cell.str r.receiptYN])

/-- `rows_af` with the handler's starting number
`(start_row - FIRST_DATA_ROW) + 1` (source line 172). -/
def emitRowsAF (start_row : Nat) (rs : List ReceiptRecord) : List (List Cell) :=
  rowsAF ((start_row - FIRST_DATA_ROW) + 1) rs

/-- One rectangular `ws.update` request, in 1-based row/column indices. -/
structure UpdateReq where
  colLo : Nat
  colHi : Nat
  rowLo : Nat
  rowHi : Nat
deriving DecidableEq

/-- The two updates of source lines 181–182, for `n` receipts:
`A{start_row}:F{end_row}` is columns 1–6 and `I{start_row}:J{end_row}`
columns 9–10, with `end_row = start_row + n - 1` (source line 179). -/
def batchWrites (start_row n : Nat) : List UpdateReq :=
  [⟨1, 6, start_row, start_row + n - 1⟩, ⟨9, 10, start_row, start_row + n - 1⟩]

/-- Does any of the update requests write the cell `(row, col)`? -/
def writesCell (reqs : List UpdateReq) (row col : Nat) : Bool :=
  reqs.any (fun u =>
    decide (u.rowLo ≤ row) && decide (row ≤ u.rowHi) &&
    decide (u.colLo ≤ col) && decide (col ≤ u.colHi))

/-! ### The spec's date shape, for comparison

This definition follows the spec's words, not the source: "1–2 digits,
separator, 1–2 digits, separator, 2 or 4 digits" (the source's pattern
also accepts a 3-digit final group). -/

/-- Exact-shape matcher used by `specDateShape`. -/
def specDateShapeAt (a b y : Nat) (s : List Char) : Bool :=
  match takeExact a Char.isDigit s with
  | none => false
  | some (_, s1) =>
    match s1 with
    | [] => false
    | c1 :: s2 =>
      if isDateSep c1 then
        match takeExact b Char.isDigit s2 with
        | none => false
        | some (_, s3) =>
          match s3 with
          | [] => false
          | c2 :: s4 =>
            if isDateSep c2 then
              match takeExact y Char.isDigit s4 with
              | none => false
              | some (_, s5) => s5.isEmpty
            else false
      else false

/-- Does the whole string `s` consist of 1–2 digits, a separator, 1–2
digits, a separator and exactly 2 or exactly 4 digits? -/
def specDateShape (s : List Char) : Bool :=
  [(1,1,2),(1,1,4),(1,2,2),(1,2,4),(2,1,2),(2,1,4),(2,2,2),(2,2,4)].any
    (fun t => specDateShapeAt t.1 t.2.1 t.2.2 s)


/-! ## Shared lemmas -/

/-- `searchAux` returns the leftmost match: the matcher succeeds at the
returned index and fails at every earlier position. -/
theorem searchAux_spec (f : Option Char → List Char → Option (List Char)) :
    ∀ (cs : List Char) (prev : Option Char) (i : Nat) (m : List Char),
      searchAux f prev cs = some (i, m) →
      f (prevAt prev cs i) (cs.drop i) = some m ∧
      ∀ j, j < i → f (prevAt prev cs j) (cs.drop j) = none := by
  intro cs
  induction cs with
  | nil =>
    intro prev i m h
    unfold searchAux at h
    cases hf : f prev [] with
    | some m' =>
      rw [hf] at h
      simp only [Option.some.injEq, Prod.mk.injEq] at h
      obtain ⟨h1, h2⟩ := h
      subst h1; subst h2
      exact ⟨hf, fun j hj => absurd hj (Nat.not_lt_zero j)⟩
    | none => rw [hf] at h; exact absurd h (by simp)
  | cons c rest ih =>
    intro prev i m h
    unfold searchAux at h
    cases hf : f prev (c :: rest) with
    | some m' =>
      rw [hf] at h
      simp only [Option.some.injEq, Prod.mk.injEq] at h
      obtain ⟨h1, h2⟩ := h
      subst h1; subst h2
      exact ⟨hf, fun j hj => absurd hj (Nat.not_lt_zero j)⟩
    | none =>
      rw [hf] at h
      cases hs : searchAux f (some c) rest with
      | none => rw [hs] at h; exact absurd h (by simp)
      | some q =>
        rw [hs] at h
        simp only [Option.some.injEq, Prod.mk.injEq] at h
        obtain ⟨h1, h2⟩ := h
        obtain ⟨ha, hb⟩ := ih (some c) q.1 q.2 (by rw [hs])
        constructor
        · subst h1; subst h2
          have hp : prevAt prev (c :: rest) (q.1 + 1) = prevAt (some c) rest q.1 := by
            cases hq : q.1 <;> simp [prevAt]
          rw [hp]
          simpa using ha
        · intro j hj
          cases j with
          | zero => simpa [prevAt] using hf
          | succ k =>
            have hk : k < q.1 := by omega
            have hp : prevAt prev (c :: rest) (k + 1) = prevAt (some c) rest k := by
              cases k <;> simp [prevAt]
            rw [hp]
            simpa using hb k hk

/-- The first line produced by `splitlines` is the run of characters
before the first line break. -/
theorem firstLineOf_eq_takeWhile :
    ∀ cs : List Char, firstLineOf cs = cs.takeWhile (fun c => !isLineBreak c) := by
  intro cs
  induction cs with
  | nil => rfl
  | cons c rest ih =>
    unfold firstLineOf
    cases hb : isLineBreak c <;> simp [List.takeWhile_cons, hb, ih]

/-- A successful batch run maps each upload, in order, through
`extract_receipt_data` of its OCR text. -/
theorem processUploads_ok_eq :
    ∀ (us : List Upload) (rs : List ReceiptRecord),
      processUploads us = Except.ok rs →
      rs = us.map (fun u => extract_receipt_data (uploadText u)) := by
  intro us
  induction us with
  | nil =>
    intro rs h
    unfold processUploads at h
    simp only [Except.ok.injEq] at h
    subst h; rfl
  | cons u rest ih =>
    intro rs h
    unfold processUploads at h
    cases u with
    | bad => simp [load_uploaded_image] at h
    | ok t =>
      simp only [load_uploaded_image] at h
      cases hr : processUploads rest with
      | error e => rw [hr] at h; exact absurd h (by simp)
      | ok rs' =>
        rw [hr] at h
        simp only [Except.ok.injEq] at h
        subst h
        simp [uploadText, ih rs' hr]

/-- Element `i` of the numbered A–F rows. -/
theorem rowsAF_get? :
    ∀ (l : List ReceiptRecord) (k i : Nat),
      (rowsAF k l).get? i = (l.get? i).map (fun r => Cell.num (k + i) :: recordCellsAF r) := by
  intro l
  induction l with
  | nil => intro k i; simp [rowsAF]
  | cons r rest ih =>
    intro k i
    cases i with
    | zero => simp [rowsAF]
    | succ n =>
      simp only [rowsAF, List.get?_cons_succ]
      rw [ih (k + 1) n, show k + 1 + n = k + (n + 1) by omega]

/-- The row-finder loop returns the least marker row at or after its
starting row. -/
theorem findStartRow_spec :
    ∀ (cells : Nat → String) (fuel start r : Nat),
      findStartRow cells fuel start = some r →
      start ≤ r ∧ isBlankCell (cells r) = true ∧
      ∀ j, start ≤ j → j < r → isBlankCell (cells j) = false := by
  intro cells fuel
  induction fuel with
  | zero => intro start r h; exact absurd h (by simp [findStartRow])
  | succ n ih =>
    intro start r h
    unfold findStartRow at h
    cases hb : isBlankCell (cells start) with
    | true =>
      rw [hb] at h
      simp only [if_true, Option.some.injEq] at h
      subst h
      exact ⟨Nat.le_refl _, hb, fun j h1 h2 => absurd h1 (by omega)⟩
    | false =>
      rw [hb] at h
      simp only [Bool.false_eq_true, if_false] at h
      obtain ⟨ha, hc, hd⟩ := ih (start + 1) r h
      refine ⟨by omega, hc, ?_⟩
      intro j hj1 hj2
      rcases Nat.eq_or_lt_of_le hj1 with hj | hj
      · rw [← hj]; exact hb
      · exact hd j (by omega) hj2

/-- The rational pixel sum is the cast of the natural one. -/
theorem sumQ_eq (l : List Nat) : sumQ l = (sumNat l : ℚ) := by
  induction l with
  | nil => simp [sumQ, sumNat]
  | cons x xs ih =>
    show (x : ℚ) + sumQ xs = ((x + sumNat xs : ℕ) : ℚ)
    rw [ih]; push_cast; ring

/-- The rational sum of squares is the cast of the natural one. -/
theorem sumSqQ_eq (l : List Nat) : sumSqQ l = (sumSqNat l : ℚ) := by
  induction l with
  | nil => simp [sumSqQ, sumSqNat]
  | cons x xs ih =>
    show (x : ℚ) ^ 2 + sumSqQ xs = ((x * x + sumSqNat xs : ℕ) : ℚ)
    rw [ih]; push_cast; ring

/-- `sqDevSum` as an integer fraction. -/
theorem sqDevSum_eq (c : List Nat) : sqDevSum c = (ssNum c : ℚ) / (clsDen c : ℚ) := by
  unfold sqDevSum ssNum clsDen
  by_cases hc : c.length = 0
  · have hnil : c = [] := List.length_eq_zero.mp hc
    subst hnil
    simp [sumNat, sumSqNat]
  · have h1 : (1 : ℕ) ≤ c.length := Nat.one_le_iff_ne_zero.mpr hc
    rw [if_neg hc, sumSqQ_eq, sumQ_eq, Nat.max_eq_right h1]
    have hq : (c.length : ℚ) ≠ 0 := Nat.cast_ne_zero.mpr hc
    field_simp
    ring

/-- `intraClassVar` as an integer fraction. -/
theorem intraClassVar_eq (l : List Nat) (t : Nat) :
    intraClassVar l t = (icvNum l t : ℚ) / (icvDen l t : ℚ) := by
  unfold intraClassVar icvNum icvDen
  rw [sqDevSum_eq, sqDevSum_eq]
  have hd0 : ((clsDen (l.filter (fun x => decide (x ≤ t))) : ℚ)) ≠ 0 := by
    unfold clsDen
    exact_mod_cast Nat.pos_iff_ne_zero.mp (lt_of_lt_of_le Nat.zero_lt_one (le_max_left _ _))
  have hd1 : ((clsDen (l.filter (fun x => !decide (x ≤ t))) : ℚ)) ≠ 0 := by
    unfold clsDen
    exact_mod_cast Nat.pos_iff_ne_zero.mp (lt_of_lt_of_le Nat.zero_lt_one (le_max_left _ _))
  rw [div_add_div _ _ hd0 hd1, div_div]
  push_cast
  ring_nf

/-- Comparing intra-class variances of a nonempty image reduces to a
cross-multiplied integer comparison. -/
theorem intraClassVar_lt_iff (l : List Nat) (t t' : Nat) (hl : l ≠ []) :
    intraClassVar l t < intraClassVar l t' ↔
      icvNum l t * (icvDen l t' : ℤ) < icvNum l t' * (icvDen l t : ℤ) := by
  have hden : ∀ u : Nat, 0 < icvDen l u := by
    intro u
    unfold icvDen clsDen
    have h1 : 0 < max 1 (l.filter (fun x => decide (x ≤ u))).length :=
      lt_of_lt_of_le Nat.zero_lt_one (le_max_left _ _)
    have h2 : 0 < max 1 (l.filter (fun x => !decide (x ≤ u))).length :=
      lt_of_lt_of_le Nat.zero_lt_one (le_max_left _ _)
    exact Nat.mul_pos (Nat.mul_pos h1 h2) (List.length_pos.mpr hl)
  have hd : (0 : ℚ) < (icvDen l t : ℚ) := by exact_mod_cast hden t
  have hd' : (0 : ℚ) < (icvDen l t' : ℚ) := by exact_mod_cast hden t'
  rw [intraClassVar_eq, intraClassVar_eq, div_lt_div_iff₀ hd hd']
  constructor <;> intro h <;> exact_mod_cast h

/-! ## Claims -/

/-- C1 counterexample.  The claim predicts `"12.00"` (the numerically
largest amount, there being no "total" line) for a text containing the
amounts 4.00 and 12.00; the source's `re.search` returns the first
match, so the extractor yields `"4.00"`. -/
theorem c1_counterexample :
    (extract_receipt_data "Item 4.00\nItem 12.00").localAmount = "4.00" ∧
    ("4.00" : String) ≠ "12.00" := by
  constructor
  · decide
  · decide

/-- C1 (amended): the extracted Local Amount is the leftmost match of the
monetary pattern, with the three currency glyphs removed — the amount
pattern succeeds at the returned index and fails at every earlier
position; no "total"-line preference and no maximum is taken. -/
theorem c1_amount_is_first_match (t : String) (i : Nat) (m : List Char)
    (h : searchAux amountAt none t.toList = some (i, m)) :
    (extract_receipt_data t).localAmount = String.mk (stripAmtGlyphs m) ∧
    amountAt (prevAt none t.toList i) (t.toList.drop i) = some m ∧
    ∀ j, j < i → amountAt (prevAt none t.toList j) (t.toList.drop j) = none := by
  obtain ⟨h1, h2⟩ := searchAux_spec amountAt t.toList none i m h
  refine ⟨?_, h1, h2⟩
  unfold extract_receipt_data
  rw [h]

/-- Witness for C1: on `"Item 4.00\nItem 12.00"` the amount pattern first
matches at index 5 with `"4.00"`, and the extractor returns it. -/
theorem c1_amount_is_first_match_witness :
    searchAux amountAt none ("Item 4.00\nItem 12.00").toList = some (5, "4.00".toList) ∧
    (extract_receipt_data "Item 4.00\nItem 12.00").localAmount =
      String.mk (stripAmtGlyphs "4.00".toList) :=
  ⟨by decide, (c1_amount_is_first_match "Item 4.00\nItem 12.00" 5 "4.00".toList (by decide)).1⟩

/-- C2 counterexample.  The claim's merchant-scoring procedure selects
`"Joe's Coffee Shop"` from the given lines; the source takes
`text.splitlines()[0]` verbatim, which is the keyword line
`"Visa Auth 1234"`. -/
theorem c2_counterexample :
    (extract_receipt_data "Visa Auth 1234\nJoe\x27s Coffee Shop\nTip: 2.00").description =
      "Visa Auth 1234" ∧
    ("Visa Auth 1234" : String) ≠ "Joe\x27s Coffee Shop" := by
  constructor
  · decide
  · decide

/-- C2 (amended): whenever the OCR text contains a non-whitespace
character, the Description is the text's first line verbatim (the run of
characters before the first line break) — no stoplist, no scoring, no
skipping of disqualified lines; it is empty only for whitespace-only
text. -/
theorem c2_description_is_first_line (t : String)
    (h : t.toList.all isPySpace = false) :
    (extract_receipt_data t).description =
      String.mk (t.toList.takeWhile (fun c => !isLineBreak c)) := by
  unfold extract_receipt_data
  rw [h]
  simp only [Bool.false_eq_true, if_false, firstLineOf_eq_takeWhile]

/-- Witness for C2: the example text is not whitespace-only and its
Description is its first line. -/
theorem c2_description_is_first_line_witness :
    ("Visa Auth 1234\nJoe\x27s Coffee Shop\nTip: 2.00").toList.all isPySpace = false ∧
    (extract_receipt_data "Visa Auth 1234\nJoe\x27s Coffee Shop\nTip: 2.00").description =
      String.mk (("Visa Auth 1234\nJoe\x27s Coffee Shop\nTip: 2.00").toList.takeWhile
        (fun c => !isLineBreak c)) :=
  ⟨by decide, c2_description_is_first_line _ (by decide)⟩

/-- C3 counterexample.  The claim says grouping commas are removed from
the captured amount; the source only strips `$`, `€`, `£`, so the comma
of `1,234.56` survives into the Local Amount. -/
theorem c3_counterexample :
    (extract_receipt_data "Fee 1,234.56").localAmount = "1,234.56" ∧
    ',' ∈ ("1,234.56" : String).toList := by
  constructor
  · decide
  · decide

/-- C3 (amended): the extracted Local Amount never contains a currency
glyph (`$`, `€`, `£` are all removed by the chained `replace` calls),
but grouping commas of the captured substring are retained. -/
theorem c3_no_currency_glyphs (t : String) :
    '$' ∉ (extract_receipt_data t).localAmount.toList ∧
    '€' ∉ (extract_receipt_data t).localAmount.toList ∧
    '£' ∉ (extract_receipt_data t).localAmount.toList := by
  unfold extract_receipt_data
  cases hs : searchAux amountAt none t.toList with
  | none => simp
  | some q =>
    simp only [stripAmtGlyphs]
    refine ⟨?_, ?_, ?_⟩ <;>
    · intro hmem
      have := (List.mem_filter.mp hmem).2
      simp at this

/-- C4 counterexample.  The claim says the Date is the first substring of
the form "1–2 digits, separator, 1–2 digits, separator, 2 or 4 digits";
on `"1/2/345"` the source's pattern (whose final group is 2–4 digits)
matches the whole string, whose year group has 3 digits, so the result
is neither empty nor of the claimed shape. -/
theorem c4_counterexample :
    (extract_receipt_data "1/2/345").date = "1/2/345" ∧
    specDateShape ("1/2/345" : String).toList = false ∧
    ("1/2/345" : String) ≠ "" := by
  refine ⟨?_, ?_, ?_⟩ <;> decide

/-- C4 (amended): the Date field is the leftmost match of the source's
pattern — 1–2 digits, separator, 1–2 digits, separator, 2 to 4 digits,
with word boundaries at both ends and no calendar validity check — and
is empty when that pattern never matches. -/
theorem c4_date_is_first_match (t : String) (i : Nat) (m : List Char)
    (h : searchAux dateAt none t.toList = some (i, m)) :
    (extract_receipt_data t).date = String.mk m ∧
    dateAt (prevAt none t.toList i) (t.toList.drop i) = some m ∧
    ∀ j, j < i → dateAt (prevAt none t.toList j) (t.toList.drop j) = none := by
  obtain ⟨h1, h2⟩ := searchAux_spec dateAt t.toList none i m h
  refine ⟨?_, h1, h2⟩
  unfold extract_receipt_data
  rw [h]

/-- Witness for C4: the spec's own example.  In
`"Subtotal 12.00\nDate: 03/14/2024\nTotal 13.50"` the date pattern first
matches at index 21 with `"03/14/2024"`, which the extractor returns. -/
theorem c4_date_is_first_match_witness :
    searchAux dateAt none ("Subtotal 12.00\nDate: 03/14/2024\nTotal 13.50").toList =
      some (21, "03/14/2024".toList) ∧
    (extract_receipt_data "Subtotal 12.00\nDate: 03/14/2024\nTotal 13.50").date =
      String.mk "03/14/2024".toList :=
  ⟨by decide,
   (c4_date_is_first_match "Subtotal 12.00\nDate: 03/14/2024\nTotal 13.50" 21
     "03/14/2024".toList (by decide)).1⟩

/-- C5 counterexample.  With a batch whose second upload fails to decode,
the handler's list comprehension raises out of the whole `try` block: the
result is the `UnreadableImage` error and no sibling image's record is
produced, against the claim that siblings are still processed. -/
theorem c5_counterexample :
    processUploads [Upload.ok "Coffee 4.00", Upload.bad, Upload.ok "Tea 3.00"] =
      Except.error PipelineError.unreadableImage := rfl

/-- C5 (amended): a single decode failure aborts the whole batch — if any
upload is undecodable, the batch computation returns the
`UnreadableImage` error and emits no records at all. -/
theorem c5_decode_failure_aborts_batch (us : List Upload) (h : Upload.bad ∈ us) :
    processUploads us = Except.error PipelineError.unreadableImage := by
  induction us with
  | nil => cases h
  | cons u rest ih =>
    rcases List.mem_cons.mp h with hu | hu
    · rw [← hu]
      rfl
    · cases u with
      | bad => rfl
      | ok t =>
        unfold processUploads
        rw [ih hu]
        simp [load_uploaded_image]

/-- Witness for C5: a concrete two-image batch with an undecodable
second image yields the batch-level error. -/
theorem c5_decode_failure_aborts_batch_witness :
    Upload.bad ∈ [Upload.ok "Lunch 8.00", Upload.bad] ∧
    processUploads [Upload.ok "Lunch 8.00", Upload.bad] =
      Except.error PipelineError.unreadableImage :=
  ⟨by decide, c5_decode_failure_aborts_batch [Upload.ok "Lunch 8.00", Upload.bad] (by decide)⟩

/-- C6 counterexample.  The source's threshold is
`max(autocontrast(gray)) * 0.5` — on this image the cut at 127.5, i.e.
the partition of integer threshold 127 — so pixel value 128 is mapped to
white.  But the intra-class variance at threshold 128 is strictly
smaller than at 127, so the code's partition is not the
variance-minimising one: the threshold is not selected by Otsu's method.
(`autocontrastApply 2 img6 = img6` shows `img6` is literally the image
reaching the binarisation step.) -/
theorem c6_counterexample :
    preprocessGray img6 = 0 :: List.replicate 48 255 ∧
    autocontrastApply 2 img6 = img6 ∧
    intraClassVar img6 128 < intraClassVar img6 127 := by
  refine ⟨by decide, by decide, ?_⟩
  exact (intraClassVar_lt_iff img6 128 127 (by decide)).mpr (by decide)

/-- C6 (amended): after the binarisation step every pixel is pure black
or pure white; but the threshold is the fixed midpoint
`max(autocontrast(gray)) * 0.5`, not the intra-class-variance minimiser
of Otsu's method. -/
theorem c6_binarization_binary (g : List Nat) (x : Nat)
    (h : x ∈ preprocessGray g) : x = 0 ∨ x = 255 := by
  unfold preprocessGray binarizeStep binWith at h
  obtain ⟨a, -, rfl⟩ := List.mem_map.mp h
  by_cases hc : listMax (autocontrastApply 0 (autocontrastApply 2 g)) < 2 * a
  · right; simp [hc]
  · left; simp [hc]

/-- Witness for C6: 255 occurs in the binarised example image and
satisfies the dichotomy. -/
theorem c6_binarization_binary_witness :
    (255 : Nat) ∈ preprocessGray img6 ∧ ((255 : Nat) = 0 ∨ (255 : Nat) = 255) :=
  ⟨by decide, c6_binarization_binary img6 255 (by decide)⟩

/-- C8: a successfully processed batch emits one record per upload in
upload order, and position `i` of the A–F rows carries receipt number
`(start_row - FIRST_DATA_ROW) + 1 + i` followed by the fields extracted
from upload `i` — consecutive numbers with no gaps, starting at the
1-based offset past the already-filled template rows. -/
theorem c8_order_and_numbering (us : List Upload) (rs : List ReceiptRecord)
    (sr i : Nat) (h : processUploads us = Except.ok rs)
    (_hsr : FIRST_DATA_ROW ≤ sr) :
    rs.length = us.length ∧
    (emitRowsAF sr rs).get? i =
      (us.get? i).map (fun u =>
        Cell.num ((sr - FIRST_DATA_ROW) + 1 + i) ::
          recordCellsAF (extract_receipt_data (uploadText u))) := by
  have hrs := processUploads_ok_eq us rs h
  subst hrs
  refine ⟨List.length_map _ _, ?_⟩
  rw [emitRowsAF, rowsAF_get?, List.get?_map, Option.map_map]
  rfl

/-- Witness for C8: a one-image batch written at the first template row
gets receipt number 1 and the record extracted from its text. -/
theorem c8_order_and_numbering_witness :
    processUploads [Upload.ok "Coffee 4.00"] =
      Except.ok [extract_receipt_data "Coffee 4.00"] ∧
    FIRST_DATA_ROW ≤ 19 ∧
    ([extract_receipt_data "Coffee 4.00"].length = [Upload.ok "Coffee 4.00"].length ∧
      (emitRowsAF 19 [extract_receipt_data "Coffee 4.00"]).get? 0 =
        ([Upload.ok "Coffee 4.00"].get? 0).map (fun u =>
          Cell.num ((19 - FIRST_DATA_ROW) + 1 + 0) ::
            recordCellsAF (extract_receipt_data (uploadText u)))) :=
  ⟨rfl, by decide, c8_order_and_numbering _ _ 19 0 rfl (by decide)⟩

/-- C9: the loop starting at `FIRST_DATA_ROW = 19` returns the smallest
row at or past 19 whose column-B value, `str`-converted and stripped, is
one of `""`, `"None"`, `"-"`; in particular the literal texts `"None"`
and `"-"` count as empty template markers. -/
theorem c9_template_row (cells : Nat → String) (fuel r : Nat)
    (h : findStartRow cells fuel FIRST_DATA_ROW = some r) :
    (FIRST_DATA_ROW ≤ r ∧ isBlankCell (cells r) = true ∧
      ∀ j, FIRST_DATA_ROW ≤ j → j < r → isBlankCell (cells j) = false) ∧
    isBlankCell "None" = true ∧ isBlankCell "-" = true ∧ isBlankCell "" = true :=
  ⟨findStartRow_spec cells fuel FIRST_DATA_ROW r h, by decide, by decide, by decide⟩

/-- Witness for C9: with rows 19 and 20 holding `"x"` and row 21 holding
the literal text `"None"`, the loop stops at row 21. -/
theorem c9_template_row_witness :
    findStartRow (fun n => if n < 21 then "x" else "None") 10 FIRST_DATA_ROW = some 21 ∧
    FIRST_DATA_ROW ≤ 21 ∧
    isBlankCell ((fun n : Nat => if n < 21 then "x" else "None") 21) = true :=
  ⟨by decide,
   ((c9_template_row (fun n => if n < 21 then "x" else "None") 10 21 (by decide)).1).1,
   ((c9_template_row (fun n => if n < 21 then "x" else "None") 10 21 (by decide)).1).2.1⟩

/-- C10: a batch write touches exactly the two rectangles — columns A–F
(1–6) and I–J (9–10), rows `start_row` through `start_row + n - 1`; in
particular columns G (7) and H (8) are never written, nor is any row
outside the band. -/
theorem c10_write_frame (sr n row col : Nat) :
    (writesCell (batchWrites sr n) row col = true ↔
      (sr ≤ row ∧ row ≤ sr + n - 1 ∧ ((1 ≤ col ∧ col ≤ 6) ∨ (9 ≤ col ∧ col ≤ 10)))) ∧
    writesCell (batchWrites sr n) row 7 = false ∧
    writesCell (batchWrites sr n) row 8 = false := by
  have key : ∀ c : Nat, writesCell (batchWrites sr n) row c = true ↔
      (sr ≤ row ∧ row ≤ sr + n - 1 ∧ ((1 ≤ c ∧ c ≤ 6) ∨ (9 ≤ c ∧ c ≤ 10))) := by
    intro c
    unfold writesCell batchWrites
    simp only [List.any_cons, List.any_nil, Bool.or_false, Bool.or_eq_true,
      Bool.and_eq_true, decide_eq_true_eq]
    omega
  refine ⟨key col, ?_, ?_⟩
  · rw [Bool.eq_false_iff]
    intro hc
    rcases (key 7).mp hc with ⟨-, -, hcol⟩
    omega
  · rw [Bool.eq_false_iff]
    intro hc
    rcases (key 8).mp hc with ⟨-, -, hcol⟩
    omega
